import Mathlib

/-!
Verification of the SecuGen fingerprint demo controller
(src/app/page.tsx): enrollment, 1:N verification with a running-max
match loop, the bounded verification log, localStorage-backed
mutations, and the JSON import/export codec.

The browser/React component state is embedded as an explicit
`AppState`; the two external HTTP endpoints (capture, pairwise
comparison) are embedded as explicit outcome parameters fed to the
handlers, so every handler is a pure function of its state and the
responses it would receive.
-/

/-- Identity record, from the `User` interface of page.tsx:
`{ id: number; name: string; template: string; enrollDate: string }`.
`id` is produced by `Date.now()` at enrollment, embedded as `Nat`. -/
structure User where
  id : Nat
  name : String
  template : String
  enrollDate : String
deriving Repr, DecidableEq

/-- Last-capture value, from the `CapturedData` interface of page.tsx:
template/image blobs plus the quality and NFIQ scores. -/
structure CapturedData where
  template : String
  image : String
  quality : Nat
  nfiq : Nat
deriving Repr, DecidableEq

/-- One verification-log entry, from the `verificationLog` object
literals in `verifyFingerprint`: the success entry carries
`userName`, the failure entry omits it, hence `Option String`. -/
structure LogEntry where
  timestamp : String
  userName : Option String
  score : Nat
  success : Bool
deriving Repr, DecidableEq

/-- Outcome of one `SGIFPCapture` call as consumed by
`captureFingerprint`: a transport failure (fetch threw or non-2xx),
a device error (`ErrorCode` nonzero), or a successful capture. -/
inductive CaptureOutcome where
  | transportFail
  | deviceError (code : Int)
  | ok (c : CapturedData)
deriving Repr, DecidableEq

/-- Outcome of one `SGIMatchScore` call as consumed by the scan loop
of `verifyFingerprint`: a transport failure (fetch threw), or a JSON
response carrying `ErrorCode` and `MatchingScore`. -/
inductive CompareResult where
  | transportFail
  | response (errorCode : Int) (matchingScore : Nat)
deriving Repr, DecidableEq

/-- The component state of `FingerprintSystem` that the claims are
about: the `users` gallery, the `name` input, the `lastCaptured`
value, the `verificationLogs` blob, and the status `message`. -/
structure AppState where
  users : List User
  name : String
  lastCaptured : Option CapturedData
  logs : List LogEntry
  message : String
deriving Repr, DecidableEq

def msgNameRequired : String := "Nama harus diisi!"
def msgCaptured : String := "Sidik jari berhasil ditangkap!"
def msgCaptureDevice : String := "Error: device"
def msgCaptureTransport : String := "Error koneksi"
def msgEnrollSaved : String := "berhasil didaftarkan dan disimpan!"
def msgEnrollSaveFailed : String :=
  "berhasil didaftarkan, tetapi gagal menyimpan ke penyimpanan lokal"
def msgNoUsers : String := "Belum ada user terdaftar!"
def msgMatchError : String := "Error matching"
def msgAccepted : String := "Verifikasi Berhasil!"
def msgRejected : String := "Sidik jari tidak cocok"
def msgDeleteSaved : String := "User berhasil dihapus dari penyimpanan lokal"
def msgDeleteSaveFailed : String :=
  "User berhasil dihapus, tetapi gagal memperbarui penyimpanan lokal"
def msgImported : String := "Berhasil mengimpor user"
def msgInvalidFormat : String := "Format file tidak valid"

/-- Embedding of `captureFingerprint`: on `ErrorCode === 0` it stores
the captured data in `lastCaptured` and returns `TemplateBase64`; on a
device error or a transport failure it sets an error message and
returns `null` (here `none`). -/
def captureFingerprint (st : AppState) (r : CaptureOutcome) :
    AppState × Option String :=
  match r with
  | .ok c =>
      ({ st with lastCaptured := some c, message := msgCaptured },
       some c.template)
  | .deviceError _ => ({ st with message := msgCaptureDevice }, none)
  | .transportFail => ({ st with message := msgCaptureTransport }, none)

/-- Embedding of JavaScript `String.prototype.trim` (strip leading and
trailing whitespace), written by structural recursion so concrete
instances evaluate; Lean's own `String.trim` agrees but is defined by
well-founded recursion on substrings. -/
def trimList (cs : List Char) : List Char :=
  ((cs.dropWhile Char.isWhitespace).reverse.dropWhile Char.isWhitespace).reverse

/-- String-level wrapper of `trimList`. -/
def strTrim (s : String) : String := ⟨trimList s.data⟩

/-- The `newUser` record built inside `enrollUser`:
`{ id: Date.now(), name: name.trim(), template, enrollDate }`. -/
def newUserOf (nm : String) (now : Nat) (d : String) (tpl : String) : User :=
  { id := now, name := strTrim nm, template := tpl, enrollDate := d }

/-- Embedding of `enrollUser`: reject an empty trimmed name; on a
successful capture append the new record to the gallery and clear the
name field; the explicit localStorage write may fail (`storeOk`), which
only changes the reported message, never the gallery. -/
def enrollUser (st : AppState) (now : Nat) (d : String)
    (cap : CaptureOutcome) (storeOk : Bool) : AppState :=
  if strTrim st.name = "" then { st with message := msgNameRequired }
  else
    match captureFingerprint st cap with
    | (st1, none) => st1
    | (st1, some tpl) =>
        { st1 with
            users := st1.users ++ [newUserOf st1.name now d tpl],
            name := "",
            message := if storeOk then msgEnrollSaved else msgEnrollSaveFailed }

/-- Embedding of `deleteUser`: filter the gallery by id; the explicit
localStorage write may fail, which only changes the message. -/
def deleteUser (st : AppState) (i : Nat) (storeOk : Bool) : AppState :=
  { st with
      users := st.users.filter (fun u => u.id != i),
      message := if storeOk then msgDeleteSaved else msgDeleteSaveFailed }

/-- The `for (const user of users)` scan loop of `verifyFingerprint`,
over the gallery zipped with the comparison responses, carrying
`bestScore` (initially 0) and `bestMatch` (initially null). A thrown
fetch (`transportFail`) returns from the whole handler, embedded as
`Except.error`; a response updates the running best only when
`ErrorCode === 0 && MatchingScore > bestScore`. -/
def scanLoop : List (User × CompareResult) → Nat → Option User →
    Except Unit (Nat × Option User)
  | [], bestScore, bestMatch => .ok (bestScore, bestMatch)
  | (_, .transportFail) :: _, _, _ => .error ()
  | (u, .response e s) :: rest, bestScore, bestMatch =>
      if e = 0 ∧ bestScore < s then scanLoop rest s (some u)
      else scanLoop rest bestScore bestMatch

/-- The acceptance condition of `verifyFingerprint`, from the branch
`if (bestScore > 100 && bestMatch)`: accepted exactly when the scan
completed, the best score strictly exceeds 100 and a best match was
recorded. -/
def matchAccepted (users : List User) (comps : List CompareResult) : Bool :=
  match scanLoop (users.zip comps) 0 none with
  | .ok (s, some _) => decide (100 < s)
  | _ => false

/-- Embedding of the `verificationLogs` update in `verifyFingerprint`:
push the entry, then if the length exceeds 50 splice off the front so
that only the most recent 50 remain. -/
def recordLog (logs : List LogEntry) (e : LogEntry) : List LogEntry :=
  let l := logs ++ [e]
  if 50 < l.length then l.drop (l.length - 50) else l

/-- Embedding of `verifyFingerprint`: guard on an empty gallery, then
capture a probe, then scan the gallery; a comparison transport failure
returns immediately with an error message (no log written); otherwise
the accept/reject branch records a verification-log entry and sets the
outcome message. -/
def verifyFingerprint (st : AppState) (ts : String) (cap : CaptureOutcome)
    (comps : List CompareResult) : AppState :=
  if st.users.isEmpty then { st with message := msgNoUsers }
  else
    match captureFingerprint st cap with
    | (st1, none) => st1
    | (st1, some _) =>
        match scanLoop (st1.users.zip comps) 0 none with
        | .error _ => { st1 with message := msgMatchError }
        | .ok (bestScore, some u) =>
            if 100 < bestScore then
              { st1 with
                  logs := recordLog st1.logs
                    { timestamp := ts, userName := some u.name,
                      score := bestScore, success := true },
                  message := msgAccepted }
            else
              { st1 with
                  logs := recordLog st1.logs
                    { timestamp := ts, userName := none,
                      score := bestScore, success := false },
                  message := msgRejected }
        | .ok (bestScore, none) =>
            { st1 with
                logs := recordLog st1.logs
                  { timestamp := ts, userName := none,
                    score := bestScore, success := false },
                message := msgRejected }

/-- The `users` field of a parsed import document, as probed by
`importData`: absent (falsy), present but not an array, or an array of
identity records. -/
inductive UsersField where
  | missing
  | notArray
  | array (us : List User)
deriving Repr, DecidableEq

/-- The portable document of `exportData`/`importData`:
`{ users, lastCaptured, exportDate }`. -/
structure ExportDoc where
  users : UsersField
  lastCaptured : Option CapturedData
  exportDate : String
deriving Repr, DecidableEq

/-- Embedding of `exportData`: build the document from the current
gallery and last capture, stamped with the export date. -/
def exportData (st : AppState) (date : String) : ExportDoc :=
  { users := .array st.users, lastCaptured := st.lastCaptured,
    exportDate := date }

/-- Embedding of the `importData` load handler: accept exactly when
`data.users && Array.isArray(data.users)` holds, replacing the gallery
and, when `data.lastCaptured` is truthy, the last capture; otherwise
only the invalid-format message is set. -/
def importData (doc : ExportDoc) (st : AppState) : AppState :=
  match doc.users with
  | .array us =>
      { st with
          users := us,
          lastCaptured :=
            match doc.lastCaptured with
            | some c => some c
            | none => st.lastCaptured,
          message := msgImported }
  | _ => { st with message := msgInvalidFormat }

/-- Pure rendering of the scan loop's success path: the strict
running-max reduction over (identity, score) pairs. -/
def runMax : List (User × Nat) → Nat → Option User → Nat × Option User
  | [], b, m => (b, m)
  | (u, s) :: rest, b, m =>
      if b < s then runMax rest s (some u) else runMax rest b m

/-- Modelled from the spec: the identity the spec says `identify`
returns — the first identity in gallery order whose score equals the
maximum (first-seen wins ties). Used to compare the source's scan loop
against the spec's description. -/
def specFirstMatch (l : List (User × Nat)) (target : Nat) : Option User :=
  (l.find? (fun p => p.2 == target)).map Prod.fst

/-! helper lemmas about the scan loop and the running-max reduction -/

lemma natMax_right {b s : Nat} (h : b ≤ s) : Nat.max b s = s :=
  Nat.max_eq_right h

lemma natMax_left {b s : Nat} (h : s ≤ b) : Nat.max b s = b :=
  Nat.max_eq_left h

lemma natMax_choice (b s : Nat) : Nat.max b s = b ∨ Nat.max b s = s :=
  max_choice b s

lemma le_foldl_max (l : List Nat) : ∀ b : Nat, b ≤ l.foldl Nat.max b := by
  induction l with
  | nil => intro b; exact Nat.le_refl b
  | cons s rest ih =>
      intro b
      rw [List.foldl_cons]
      exact Nat.le_trans (Nat.le_max_left b s) (ih (Nat.max b s))

lemma foldl_max_eq_or_mem (l : List Nat) :
    ∀ b : Nat, l.foldl Nat.max b = b ∨ l.foldl Nat.max b ∈ l := by
  induction l with
  | nil => intro b; exact Or.inl rfl
  | cons s rest ih =>
      intro b
      rw [List.foldl_cons]
      rcases ih (Nat.max b s) with h | h
      · rcases natMax_choice b s with hb | hs
        · exact Or.inl (by rw [h, hb])
        · exact Or.inr (by rw [h, hs]; exact List.mem_cons_self s rest)
      · exact Or.inr (List.mem_cons_of_mem s h)

lemma map_snd_zip_eq (users : List User) :
    ∀ scores : List Nat, users.length = scores.length →
      (users.zip scores).map Prod.snd = scores := by
  induction users with
  | nil =>
      intro scores h
      cases scores with
      | nil => rfl
      | cons s ss => simp at h
  | cons u us ih =>
      intro scores h
      cases scores with
      | nil => simp at h
      | cons s ss =>
          simp only [List.zip_cons_cons, List.map_cons]
          rw [ih ss (by simpa using h)]

lemma scanLoop_success_eq_runMax (users : List User) :
    ∀ (scores : List Nat) (b : Nat) (m : Option User),
      scanLoop (users.zip (scores.map (CompareResult.response 0))) b m =
        .ok (runMax (users.zip scores) b m) := by
  induction users with
  | nil => intro scores b m; simp [scanLoop, runMax]
  | cons u us ih =>
      intro scores b m
      cases scores with
      | nil => simp [scanLoop, runMax]
      | cons s ss =>
          simp only [List.map_cons, List.zip_cons_cons]
          by_cases hbs : b < s
          · rw [scanLoop, runMax, if_pos ⟨rfl, hbs⟩, if_pos hbs, ih]
          · rw [scanLoop, runMax, if_neg (fun h => hbs h.2), if_neg hbs, ih]

lemma runMax_char (l : List (User × Nat)) :
    ∀ (b : Nat) (m : Option User),
      runMax l b m =
        if (l.map Prod.snd).foldl Nat.max b = b then (b, m)
        else ((l.map Prod.snd).foldl Nat.max b,
              specFirstMatch l ((l.map Prod.snd).foldl Nat.max b)) := by
  induction l with
  | nil => intro b m; simp [runMax]
  | cons p rest ih =>
      intro b m
      obtain ⟨u, s⟩ := p
      simp only [List.map_cons, List.foldl_cons]
      by_cases hbs : b < s
      · rw [runMax, if_pos hbs, ih s (some u), natMax_right (Nat.le_of_lt hbs)]
        have hsM : s ≤ (rest.map Prod.snd).foldl Nat.max s :=
          le_foldl_max (rest.map Prod.snd) s
        have hbM : b < (rest.map Prod.snd).foldl Nat.max s :=
          Nat.lt_of_lt_of_le hbs hsM
        rw [if_neg (Nat.ne_of_gt hbM)]
        by_cases hMs : (rest.map Prod.snd).foldl Nat.max s = s
        · rw [if_pos hMs, hMs]
          simp [specFirstMatch, List.find?]
        · rw [if_neg hMs]
          have hsne : ¬ (s == (rest.map Prod.snd).foldl Nat.max s) = true := by
            simp only [beq_iff_eq]
            exact fun h => hMs h.symm
          simp only [specFirstMatch, List.find?, hsne]
      · rw [runMax, if_neg hbs, ih b m, natMax_left (Nat.le_of_not_lt hbs)]
        by_cases hMb : (rest.map Prod.snd).foldl Nat.max b = b
        · rw [if_pos hMb, if_pos hMb]
        · rw [if_neg hMb, if_neg hMb]
          have hbM : b < (rest.map Prod.snd).foldl Nat.max b :=
            Nat.lt_of_le_of_ne (le_foldl_max (rest.map Prod.snd) b)
              (fun h => hMb h.symm)
          have hsne : ¬ (s == (rest.map Prod.snd).foldl Nat.max b) = true := by
            simp only [beq_iff_eq]
            intro h
            exact Nat.lt_irrefl b
              (Nat.lt_of_lt_of_le hbM (h ▸ Nat.le_of_not_lt hbs))
          simp only [specFirstMatch, List.find?, hsne]

lemma specFirstMatch_isSome_of_mem (l : List (User × Nat)) (target : Nat)
    (h : target ∈ l.map Prod.snd) : ∃ u, specFirstMatch l target = some u := by
  obtain ⟨p, hp, hps⟩ := List.mem_map.mp h
  have hfind : (l.find? (fun q => q.2 == target)).isSome :=
    List.find?_isSome.mpr ⟨p, hp, by simp [hps]⟩
  obtain ⟨q, hq⟩ := Option.isSome_iff_exists.mp hfind
  exact ⟨q.1, by simp [specFirstMatch, hq]⟩

lemma scanLoop_fail_append (pre : List (User × CompareResult)) (u : User)
    (post : List (User × CompareResult)) :
    ∀ (b : Nat) (m : Option User),
      scanLoop (pre ++ (u, CompareResult.transportFail) :: post) b m =
        .error () := by
  induction pre with
  | nil => intro b m; rfl
  | cons q rest ih =>
      intro b m
      obtain ⟨v, c⟩ := q
      cases c with
      | transportFail => rfl
      | response e s =>
          rw [List.cons_append, scanLoop]
          split
          · exact ih s (some v)
          · exact ih b m

lemma scanLoop_pos_isSome :
    ∀ (zs : List (User × CompareResult)) (b : Nat) (m : Option User)
      (s : Nat) (m' : Option User),
      scanLoop zs b m = .ok (s, m') → (0 < b → m.isSome = true) →
      0 < s → m'.isSome = true := by
  intro zs
  induction zs with
  | nil =>
      intro b m s m' h hb hs
      simp only [scanLoop, Except.ok.injEq, Prod.mk.injEq] at h
      exact h.2 ▸ hb (h.1 ▸ hs)
  | cons p rest ih =>
      intro b m s m' h hb hs
      obtain ⟨u, c⟩ := p
      cases c with
      | transportFail => simp [scanLoop] at h
      | response e sc =>
          rw [scanLoop] at h
          split at h
          · exact ih sc (some u) s m' h (fun _ => rfl) hs
          · exact ih b m s m' h hb hs

lemma users_ne_nil_of_zip_fail (st : AppState) (comps : List CompareResult)
    (pre post : List (User × CompareResult)) (u : User)
    (h : st.users.zip comps = pre ++ (u, CompareResult.transportFail) :: post) :
    st.users.isEmpty = false := by
  cases hu : st.users with
  | nil => rw [hu] at h; simp [List.zip] at h
  | cons a l => rfl

/-! concrete sample data used by the witnesses and counterexamples -/

def uA : User := { id := 1, name := "Andi", template := "tplA", enrollDate := "d1" }

def uB : User := { id := 2, name := "Budi", template := "tplB", enrollDate := "d2" }

def uC : User := { id := 3, name := "Cici", template := "tplC", enrollDate := "d3" }

def capW : CapturedData :=
  { template := "probe", image := "img", quality := 80, nfiq := 2 }

def stW : AppState :=
  { users := [uA, uB, uC], name := "Dewi", lastCaptured := none,
    logs := [], message := "" }

def stOne : AppState :=
  { users := [uA], name := "", lastCaptured := none, logs := [], message := "" }

/-- C2: over a non-empty gallery where every comparison succeeds, the
verification outcome is accepted exactly when the maximum comparison
score seen strictly exceeds 100; in particular with every score at
most 100 the outcome is not accepted, whichever identity scored
highest. -/
theorem accept_iff_max_gt_hundred (users : List User) (scores : List Nat)
    (_hne : users ≠ []) (hlen : users.length = scores.length) :
    (matchAccepted users (scores.map (CompareResult.response 0)) = true ↔
      100 < scores.foldl Nat.max 0) := by
  have hscan := scanLoop_success_eq_runMax users scores 0 none
  have hchar := runMax_char (users.zip scores) 0 none
  rw [map_snd_zip_eq users scores hlen] at hchar
  by_cases hM : scores.foldl Nat.max 0 = 0
  · rw [if_pos hM] at hchar
    unfold matchAccepted
    rw [hscan, hchar]
    simp [hM]
  · rw [if_neg hM] at hchar
    have hmem : scores.foldl Nat.max 0 ∈ scores := by
      rcases foldl_max_eq_or_mem scores 0 with h | h
      · exact absurd h hM
      · exact h
    have hmem2 : scores.foldl Nat.max 0 ∈ (users.zip scores).map Prod.snd := by
      rw [map_snd_zip_eq users scores hlen]; exact hmem
    obtain ⟨u, hu⟩ := specFirstMatch_isSome_of_mem _ _ hmem2
    unfold matchAccepted
    rw [hscan, hchar, hu]
    simp

theorem accept_iff_max_gt_hundred_witness :
    matchAccepted [uA, uB, uC]
      ([30, 50, 100].map (CompareResult.response 0)) = false := by
  have h := accept_iff_max_gt_hundred [uA, uB, uC] [30, 50, 100]
    (by simp) rfl
  have hn : ¬ (100 < [30, 50, 100].foldl Nat.max 0) := by decide
  cases hb : matchAccepted [uA, uB, uC]
      ([30, 50, 100].map (CompareResult.response 0)) with
  | false => rfl
  | true => exact absurd (h.mp hb) hn

/-- C3 (amended): over a non-empty gallery with every comparison
succeeding and a positive maximum score, the scan returns the maximum
score together with the first identity in gallery order achieving it;
moreover a comparison whose score does not strictly exceed the running
best never replaces the recorded best match, so later equal scores
lose ties. When every score is 0 no identity is recorded at all. -/
theorem identify_returns_first_max (users : List User) (scores : List Nat)
    (_hne : users ≠ []) (hlen : users.length = scores.length)
    (hpos : 0 < scores.foldl Nat.max 0) :
    scanLoop (users.zip (scores.map (CompareResult.response 0))) 0 none =
      .ok (scores.foldl Nat.max 0,
           specFirstMatch (users.zip scores) (scores.foldl Nat.max 0)) ∧
    (∀ (rest : List (User × CompareResult)) (u : User) (s b : Nat)
        (m : Option User), s ≤ b →
      scanLoop ((u, CompareResult.response 0 s) :: rest) b m =
        scanLoop rest b m) := by
  constructor
  · rw [scanLoop_success_eq_runMax, runMax_char,
        map_snd_zip_eq users scores hlen,
        if_neg (Nat.pos_iff_ne_zero.mp hpos)]
  · intro rest u s b m hsb
    rw [scanLoop, if_neg (fun h => absurd h.2 (Nat.not_lt.mpr hsb))]

theorem identify_returns_first_max_witness :
    scanLoop ([uA, uB, uC].zip
        ([40, 150, 90].map (CompareResult.response 0))) 0 none =
      .ok (150, some uB) := by
  have h := identify_returns_first_max [uA, uB, uC] [40, 150, 90]
    (by simp) rfl (by decide)
  rw [h.1]
  rfl

/-- C3 counterexample: with the single successful comparison score 0,
the maximum score 0 is achieved by the first (only) identity in the
gallery, yet the scan records no best match, so the scan does not
return the identity achieving the maximum score. -/
theorem identify_zero_max_cex :
    scanLoop ([uA].zip ([0].map (CompareResult.response 0))) 0 none =
      .ok (0, none) ∧
    specFirstMatch ([uA].zip [0]) ([0].foldl Nat.max 0) = some uA ∧
    (none : Option User) ≠ some uA := by
  refine ⟨rfl, rfl, by simp⟩

/-- C9: a completed scan that starts from best score 0 and no best
match only reaches a final best score above 100 together with a
recorded best match, since the best score is only raised when the
achieving identity is stored. -/
theorem accepted_implies_match_some (zs : List (User × CompareResult))
    (s : Nat) (m : Option User)
    (h : scanLoop zs 0 none = .ok (s, m)) (hs : 100 < s) :
    m.isSome = true :=
  scanLoop_pos_isSome zs 0 none s m h
    (fun h0 => absurd h0 (Nat.lt_irrefl 0))
    (Nat.lt_of_le_of_lt (Nat.zero_le 100) hs)

theorem accepted_implies_match_some_witness :
    (some uA).isSome = true :=
  accepted_implies_match_some [(uA, CompareResult.response 0 150)] 150
    (some uA) rfl (by decide)

/-- C4: a comparison-endpoint transport failure at any position in the
scan immediately aborts the whole scan with a transport error no
matter what records remain, and at the handler level the scan ends
with the matching-error message and no match outcome; by contrast a
comparison response with nonzero ErrorCode behaves exactly as a
score-0 contribution and the scan continues over the rest. -/
theorem transport_abort_and_error_skip :
    (∀ (pre post : List (User × CompareResult)) (u : User) (b : Nat)
        (m : Option User),
      scanLoop (pre ++ (u, CompareResult.transportFail) :: post) b m =
        .error ()) ∧
    (∀ (rest : List (User × CompareResult)) (u : User) (e : Int)
        (s b : Nat) (m : Option User), e ≠ 0 →
      scanLoop ((u, CompareResult.response e s) :: rest) b m =
        scanLoop ((u, CompareResult.response 0 0) :: rest) b m) ∧
    (∀ (st : AppState) (ts : String) (c : CapturedData)
        (comps : List CompareResult)
        (pre post : List (User × CompareResult)) (u : User),
      st.users.zip comps = pre ++ (u, CompareResult.transportFail) :: post →
      verifyFingerprint st ts (CaptureOutcome.ok c) comps =
        { st with lastCaptured := some c, message := msgMatchError }) := by
  refine ⟨fun pre post u b m => scanLoop_fail_append pre u post b m, ?_, ?_⟩
  · intro rest u e s b m he
    rw [scanLoop, scanLoop, if_neg (fun h => he h.1),
        if_neg (fun h => Nat.not_lt_zero b h.2)]
  · intro st ts c comps pre post u h
    have hne := users_ne_nil_of_zip_fail st comps pre post u h
    simp [verifyFingerprint, captureFingerprint, hne, h, scanLoop_fail_append]

theorem transport_abort_and_error_skip_witness :
    scanLoop [(uA, CompareResult.transportFail)] 0 none = .error () ∧
    scanLoop [(uA, CompareResult.response 57 180),
              (uB, CompareResult.response 0 150)] 0 none =
      scanLoop [(uA, CompareResult.response 0 0),
                (uB, CompareResult.response 0 150)] 0 none ∧
    verifyFingerprint stOne "t0" (CaptureOutcome.ok capW)
        [CompareResult.transportFail] =
      { stOne with lastCaptured := some capW, message := msgMatchError } := by
  refine ⟨transport_abort_and_error_skip.1 [] [] uA 0 none,
          transport_abort_and_error_skip.2.1
            [(uB, CompareResult.response 0 150)] uA 57 180 0 none
            (by decide),
          transport_abort_and_error_skip.2.2 stOne "t0" capW
            [CompareResult.transportFail] [] [] uA rfl⟩

/-- C10: a verification scan aborted by a comparison-endpoint
transport failure writes no verification-log entry, since entries are
only recorded after the scan over the whole gallery completes. -/
theorem aborted_scan_logs_unchanged (st : AppState) (ts : String)
    (c : CapturedData) (comps : List CompareResult)
    (pre post : List (User × CompareResult)) (u : User)
    (h : st.users.zip comps = pre ++ (u, CompareResult.transportFail) :: post) :
    (verifyFingerprint st ts (CaptureOutcome.ok c) comps).logs = st.logs := by
  have hne := users_ne_nil_of_zip_fail st comps pre post u h
  simp [verifyFingerprint, captureFingerprint, hne, h, scanLoop_fail_append]

theorem aborted_scan_logs_unchanged_witness :
    (verifyFingerprint stOne "t0" (CaptureOutcome.ok capW)
        [CompareResult.transportFail]).logs = stOne.logs :=
  aborted_scan_logs_unchanged stOne "t0" capW [CompareResult.transportFail]
    [] [] uA rfl

/-- C1 (amended): every successful enrollment (non-empty trimmed name,
successful capture) appends exactly one record to the gallery, growing
it by one for any prior gallery; the new record carries the clock
value as id, so it is distinct from every prior id whenever that clock
value is not already an id in the gallery. -/
theorem enroll_grows_gallery (st : AppState) (now : Nat) (d : String)
    (c : CapturedData) (storeOk : Bool) (hname : strTrim st.name ≠ "") :
    (enrollUser st now d (CaptureOutcome.ok c) storeOk).users =
      st.users ++ [newUserOf st.name now d c.template] ∧
    (enrollUser st now d (CaptureOutcome.ok c) storeOk).users.length =
      st.users.length + 1 ∧
    ((∀ u ∈ st.users, u.id ≠ now) →
      ∀ u ∈ st.users, u.id ≠ (newUserOf st.name now d c.template).id) := by
  refine ⟨?_, ?_, ?_⟩
  · simp [enrollUser, captureFingerprint, hname]
  · simp [enrollUser, captureFingerprint, hname]
  · intro hfresh u hu
    exact hfresh u hu

theorem enroll_grows_gallery_witness :
    (enrollUser stW 99 "d9" (CaptureOutcome.ok capW) true).users =
      stW.users ++ [newUserOf stW.name 99 "d9" capW.template] ∧
    (enrollUser stW 99 "d9" (CaptureOutcome.ok capW) true).users.length =
      stW.users.length + 1 ∧
    (∀ u ∈ stW.users, u.id ≠ 99) := by
  have h := enroll_grows_gallery stW 99 "d9" capW true (by decide)
  exact ⟨h.1, h.2.1, by decide⟩

def stDup : AppState :=
  { users := [{ id := 5, name := "Lama", template := "t0", enrollDate := "d0" }],
    name := "Baru", lastCaptured := none, logs := [], message := "" }

/-- C1 counterexample: enrolling while the current clock value 5 is
already an id in the gallery (possible after an import, or a
same-millisecond enrollment) succeeds and appends a record whose id
equals the existing record's id, so for arbitrary prior gallery states
the new id is not distinct from every prior id. -/
theorem enroll_duplicate_id_cex :
    strTrim stDup.name ≠ "" ∧
    (enrollUser stDup 5 "d" (CaptureOutcome.ok capW) true).users =
      stDup.users ++ [newUserOf stDup.name 5 "d" capW.template] ∧
    ¬ (∀ u ∈ stDup.users,
        u.id ≠ (newUserOf stDup.name 5 "d" capW.template).id) := by
  refine ⟨by decide, by decide, ?_⟩
  intro hall
  exact hall { id := 5, name := "Lama", template := "t0", enrollDate := "d0" }
    (by simp [stDup]) rfl

/-- C5: recording a verification-log entry keeps the log at no more
than 50 entries; recording into a log that already holds exactly 50
evicts the front entry and retains the most recent 50 in oldest-first
order, so the pre-insertion oldest entry is gone whenever it does not
also occur later in the log or equal the new entry. -/
theorem audit_log_bounded_fifo (logs : List LogEntry) (e : LogEntry)
    (_hle : logs.length ≤ 50) :
    (recordLog logs e).length ≤ 50 ∧
    (logs.length = 50 →
      recordLog logs e = logs.drop 1 ++ [e] ∧
      (∀ h0, logs.head? = some h0 → h0 ∉ logs.drop 1 → h0 ≠ e →
        h0 ∉ recordLog logs e)) := by
  constructor
  · by_cases h : 50 < (logs ++ [e]).length
    · simp only [recordLog, if_pos h, List.length_drop]
      omega
    · simp only [recordLog, if_neg h]
      omega
  · intro h50
    have hlen1 : (logs ++ [e]).length = logs.length + 1 := by simp
    have hgt : 50 < (logs ++ [e]).length := by omega
    have hdrop : (logs ++ [e]).length - 50 = 1 := by omega
    have heq : recordLog logs e = logs.drop 1 ++ [e] := by
      simp only [recordLog, if_pos hgt, hdrop]
      exact List.drop_append_of_le_length (by omega)
    refine ⟨heq, ?_⟩
    intro h0 _hhead hnotin hne hmem
    rw [heq] at hmem
    rcases List.mem_append.mp hmem with hm | hm
    · exact hnotin hm
    · simp only [List.mem_singleton] at hm
      exact hne hm

def mkLogEntry (i : Nat) : LogEntry :=
  { timestamp := "", userName := none, score := i, success := false }

def logs50 : List LogEntry := (List.range 50).map mkLogEntry

theorem audit_log_bounded_fifo_witness :
    (recordLog logs50 (mkLogEntry 50)).length ≤ 50 ∧
    recordLog logs50 (mkLogEntry 50) = logs50.drop 1 ++ [mkLogEntry 50] ∧
    mkLogEntry 0 ∉ recordLog logs50 (mkLogEntry 50) := by
  have h := audit_log_bounded_fifo logs50 (mkLogEntry 50) (by decide)
  have h2 := h.2 (by decide)
  exact ⟨h.1, h2.1, h2.2 (mkLogEntry 0) (by decide) (by decide) (by decide)⟩

/-- C6: exporting the gallery and last capture to the portable
document and importing that document back yields a gallery with
identical content, and hence identical cardinality, whatever prior
state the importer is applied to. -/
theorem export_import_roundtrip (st stPrior : AppState) (date : String) :
    (importData (exportData st date) stPrior).users = st.users ∧
    (importData (exportData st date) stPrior).users.length =
      st.users.length := by
  constructor <;> simp [importData, exportData]

/-- C7: importing a document whose users field is missing or not an
array is rejected with the invalid-format message, and the gallery and
last-capture state are left completely unchanged. -/
theorem import_invalid_unchanged (doc : ExportDoc) (st : AppState)
    (h : doc.users = UsersField.missing ∨ doc.users = UsersField.notArray) :
    (importData doc st).users = st.users ∧
    (importData doc st).lastCaptured = st.lastCaptured ∧
    (importData doc st).message = msgInvalidFormat := by
  rcases h with h | h <;> simp [importData, h]

def docBad : ExportDoc :=
  { users := UsersField.missing, lastCaptured := none, exportDate := "x" }

theorem import_invalid_unchanged_witness :
    (importData docBad stW).users = stW.users ∧
    (importData docBad stW).lastCaptured = stW.lastCaptured ∧
    (importData docBad stW).message = msgInvalidFormat :=
  import_invalid_unchanged docBad stW (Or.inl rfl)

/-- C8: for both mutating operations, a localStorage write failure
does not block the in-memory mutation: the resulting gallery is the
mutated one for either write outcome, and the failure is only
reported through the message. -/
theorem storage_error_keeps_mutation (st : AppState) (now : Nat)
    (d : String) (c : CapturedData) (i : Nat)
    (hname : strTrim st.name ≠ "") :
    (∀ storeOk : Bool,
      (enrollUser st now d (CaptureOutcome.ok c) storeOk).users =
        st.users ++ [newUserOf st.name now d c.template]) ∧
    (enrollUser st now d (CaptureOutcome.ok c) false).message =
      msgEnrollSaveFailed ∧
    (∀ storeOk : Bool,
      (deleteUser st i storeOk).users =
        st.users.filter (fun u => u.id != i)) ∧
    (deleteUser st i false).message = msgDeleteSaveFailed := by
  refine ⟨fun so => ?_, ?_, fun so => rfl, rfl⟩
  · simp [enrollUser, captureFingerprint, hname]
  · simp [enrollUser, captureFingerprint, hname]

theorem storage_error_keeps_mutation_witness :
    (enrollUser stW 99 "d9" (CaptureOutcome.ok capW) false).users =
      stW.users ++ [newUserOf stW.name 99 "d9" capW.template] ∧
    (deleteUser stW 2 false).users =
      stW.users.filter (fun u => u.id != 2) := by
  have h := storage_error_keeps_mutation stW 99 "d9" capW 2 (by decide)
  exact ⟨h.1 false, h.2.2.1 false⟩
